import Mathlib

/-!
Shallow embedding of the core of the `aiat` VS Code extension:
the dual state machine (`StateManager`, `src/stateManager.ts`), the
message-to-state inference, the persistent message store
(`src/utils/messageStorage.ts`), the MCP JSON-RPC tunnel responder
(`src/server/toolServer.ts`, class `McpTunnel`) and the relevant parts of
the WebSocket client (`src/client/agentClient.ts`).

The source is single-threaded and event-driven.  Stateful classes are
embedded as pure functions from an explicit state value to a new state
value plus the list of listener notifications fired during the call.
The re-entrancy guard of `StateManager` (`_updatingConnection` /
`_updatingTask` and the pending-update queues) only becomes active when a
listener synchronously re-enters an update; listeners are modelled as
pure notification records, so at every modelled external entry the guard
flags are `false` and the pending slots empty, exactly as in a
non-re-entrant call sequence.  Timers (`setTimeout`) are modelled as
explicit armed-timer fields plus a separate "the timer fires" transition
function.
-/

namespace Aiat

/-! ## State manager data model (`src/stateManager.ts`) -/

/-- `export type ConnectionState = 'connecting' | 'connected' | 'error' | 'closed'` -/
inductive ConnectionState
  | connecting
  | connected
  | error
  | closed
  deriving DecidableEq, Repr

/-- `export type TaskState = 'idle' | 'starting' | 'running' | 'awaiting_input' | 'stopping' | 'completed' | 'error'` -/
inductive TaskState
  | idle
  | starting
  | running
  | awaiting_input
  | stopping
  | completed
  | error
  deriving DecidableEq, Repr

/-- The shape of an inbound protocol message as far as `StateManager` and the
client read it: the `type` discriminator, the top-level `status` field (read by
`inferStateFromMessage` for `system` and `completion` messages), the nested
`data.status` field (read for `result` messages and by the client's content
rendering for `completion` messages) and the `prompt` of an `input_request`.
Absent fields are `none` (JS `undefined`). -/
structure Message where
  type : String
  status : Option String := none
  dataStatus : Option String := none
  prompt : Option String := none
  deriving DecidableEq, Repr

/-- `interface AppState` of `stateManager.ts`. -/
structure AppState where
  connection : ConnectionState
  task : TaskState
  runId : Option String
  lastError : Option String
  lastMessage : Option Message
  deriving DecidableEq, Repr

/-- One listener notification fired by the state manager:
`generic` models a call of every `_listeners` callback with a state snapshot,
`conn` a call of every `_connectionListeners` callback, and
`task` a call of every `_taskListeners` callback. -/
inductive Notification
  | generic (s : AppState)
  | conn (c : ConnectionState)
  | task (t : TaskState)
  deriving DecidableEq, Repr

/-- `STOP_TIMEOUT_MS = 5000` of `stateManager.ts`. -/
def STOP_TIMEOUT_MS : Nat := 5000

/-- Mutable state of one `StateManager` instance: the `_state` field plus the
stop watchdog.  `stopTimeout = some d` models `_stopTimeout` holding a timer
armed with delay `d` milliseconds; `none` models `_stopTimeout === null`. -/
structure SMState where
  state : AppState
  stopTimeout : Option Nat
  deriving DecidableEq, Repr

/-- The initial `_state` of a freshly constructed `StateManager`. -/
def initialSMState : SMState :=
  { state := { connection := ConnectionState.closed, task := TaskState.idle,
               runId := none, lastError := none, lastMessage := none },
    stopTimeout := none }

/-- `_handleStopTimeout(oldState, newState)`, restricted to its effect on the
timer slot: entering `stopping` (re-)arms the 5-second timer, leaving
`stopping` clears it, anything else leaves it alone. -/
def handleStopTimeoutTimer (timer : Option Nat) (oldS newS : TaskState) : Option Nat :=
  if newS = TaskState.stopping then some STOP_TIMEOUT_MS
  else if oldS = TaskState.stopping then none
  else timer

/-- `syncConnectionWithTaskState(oldConnectionState, newConnectionState)`:
when the connection becomes `closed` or `error` and the task is not `idle`,
the task is reset to `idle` in place and the task listeners are notified.
Note that, as in the source, the stop-watchdog timer slot is not touched. -/
def syncConnectionWithTaskState (s : SMState) (newConn : ConnectionState) :
    SMState × List Notification :=
  if (newConn = ConnectionState.closed ∨ newConn = ConnectionState.error)
      ∧ s.state.task ≠ TaskState.idle then
    ({ s with state := { s.state with task := TaskState.idle } },
     [Notification.task TaskState.idle])
  else
    (s, [])

/-- `_performConnectionStateUpdate(newState, error)`: set the connection,
record the error if one was passed, notify the generic listeners and the
connection listeners, then run the one-directional coupling
`syncConnectionWithTaskState`. -/
def performConnectionStateUpdate (s : SMState) (newState : ConnectionState)
    (e : Option String) : SMState × List Notification :=
  let st1 : AppState :=
    { s.state with connection := newState,
                   lastError := if e.isSome then e else s.state.lastError }
  let s1 : SMState := { s with state := st1 }
  let r2 := syncConnectionWithTaskState s1 newState
  (r2.1, [Notification.generic st1, Notification.conn newState] ++ r2.2)

/-- `updateConnectionState(newState, error)`: the idempotence guard — a call
with an unchanged state and no error returns without doing anything. -/
def updateConnectionState (s : SMState) (newState : ConnectionState)
    (e : Option String) : SMState × List Notification :=
  if s.state.connection = newState ∧ e = none then (s, [])
  else performConnectionStateUpdate s newState e

/-- `_performTaskStateUpdate(newState, error)`: set the task, record the error
if one was passed, run `_handleStopTimeout`, notify the generic listeners and
the task listeners. -/
def performTaskStateUpdate (s : SMState) (newState : TaskState)
    (e : Option String) : SMState × List Notification :=
  let st1 : AppState :=
    { s.state with task := newState,
                   lastError := if e.isSome then e else s.state.lastError }
  let timer := handleStopTimeoutTimer s.stopTimeout s.state.task newState
  ({ state := st1, stopTimeout := timer },
   [Notification.generic st1, Notification.task newState])

/-- `updateTaskState(newState, error)`: the idempotence guard, then the
update. -/
def updateTaskState (s : SMState) (newState : TaskState)
    (e : Option String) : SMState × List Notification :=
  if s.state.task = newState ∧ e = none then (s, [])
  else performTaskStateUpdate s newState e

/-- The synthetic error message the stop watchdog attaches when it forces the
task back to `idle`. -/
def stopTimeoutMessage : String := "停止操作超时，自动恢复"

/-- The `setTimeout` callback armed by `_handleStopTimeout`: when it fires it
forces the task to `idle` with the synthetic stop-timed-out error, but only if
the task is still `stopping`. -/
def fireStopTimeout (s : SMState) : SMState × List Notification :=
  if s.state.task = TaskState.stopping then
    updateTaskState s TaskState.idle (some stopTimeoutMessage)
  else
    (s, [])

/-- `batchUpdateStates(connectionState, taskState)`: write both sub-states in
place, and if anything actually changed fire one generic notification plus the
connection/task listeners for every sub-state that was passed (even a passed
sub-state equal to the current one, as in the source).  Neither `lastError`
nor the stop-watchdog timer is touched. -/
def batchUpdateStates (s : SMState) (c : Option ConnectionState)
    (t : Option TaskState) : SMState × List Notification :=
  let connChanged : Bool := match c with
    | some cv => decide (cv ≠ s.state.connection)
    | none => false
  let st1 : AppState := match c with
    | some cv => if cv ≠ s.state.connection then { s.state with connection := cv } else s.state
    | none => s.state
  let taskChanged : Bool := match t with
    | some tv => decide (tv ≠ st1.task)
    | none => false
  let st2 : AppState := match t with
    | some tv => if tv ≠ st1.task then { st1 with task := tv } else st1
    | none => st1
  if connChanged ∨ taskChanged then
    ({ s with state := st2 },
     [Notification.generic st2]
       ++ (match c with | some cv => [Notification.conn cv] | none => [])
       ++ (match t with | some tv => [Notification.task tv] | none => []))
  else
    (s, [])

/-- The connection transition derived by the `switch` of
`inferStateFromMessage`: only `system` messages with `status === 'connected'`
derive one. -/
def inferredConnection (m : Message) : Option ConnectionState :=
  if m.type = "system" then
    (if m.status = some "connected" then some ConnectionState.connected else none)
  else none

/-- The task transition derived by the `switch` of `inferStateFromMessage`,
reading the current `AppState` exactly where the source does. -/
def inferredTask (st : AppState) (m : Message) : Option TaskState :=
  if m.type = "system" then none
  else if m.type = "message" then
    (if st.task = TaskState.idle ∧ st.connection = ConnectionState.connected
     then some TaskState.running else none)
  else if m.type = "result" then
    (if m.dataStatus = some "complete" then some TaskState.completed
     else if st.task = TaskState.stopping then some TaskState.idle
     else none)
  else if m.type = "completion" then
    (if m.status = some "cancelled" then some TaskState.idle
     else if m.status = some "completed" then some TaskState.completed
     else none)
  else if m.type = "input_request" then some TaskState.awaiting_input
  else if m.type = "stop" then
    (if st.task = TaskState.stopping ∨ st.task = TaskState.running
        ∨ st.task = TaskState.starting ∨ st.task = TaskState.completed
     then some TaskState.idle else none)
  else if m.type = "error" then some TaskState.error
  else none

/-- `inferStateFromMessage(message)`: `setLastMessage` runs first (storing the
message and notifying the generic listeners), then the switch derives zero,
one or two sub-state transitions, and a non-empty derivation is applied
through `batchUpdateStates`.  `pong` and unknown types return right after
`setLastMessage`. -/
def inferStateFromMessage (s : SMState) (m : Message) : SMState × List Notification :=
  let st0 : AppState := { s.state with lastMessage := some m }
  let s0 : SMState := { s with state := st0 }
  let c := inferredConnection m
  let t := inferredTask st0 m
  if c.isSome ∨ t.isSome then
    let r := batchUpdateStates s0 c t
    (r.1, Notification.generic st0 :: r.2)
  else
    (s0, [Notification.generic st0])

/-! ## Message store data model (`src/utils/messageStorage.ts`) -/

/-- Message direction of an `AgentMessage`. -/
inductive Direction
  | incoming
  | outgoing
  deriving DecidableEq, Repr

/-- The parts of a message's `data` payload that `extractReadableInfo` reads
(`data.task`, `data.content`, `data.name`); other payload content is never
inspected by the store. -/
structure MessageData where
  task : Option String := none
  content : Option String := none
  name : Option String := none
  deriving DecidableEq, Repr

/-- `interface AgentMessage` of `agentClient.ts` as the message store consumes
it.  `data` is `none` when the JS field is absent or not an object. -/
structure AgentMessage where
  type : String
  content : Option String := none
  data : Option MessageData := none
  source : Option String := none
  timestamp : Nat
  direction : Direction
  deriving DecidableEq, Repr

/-- `interface StoredMessage extends AgentMessage` restricted to the fields
`saveMessage` actually writes: the spread of the message plus `runId` (the
optional group fields are never set on archived messages). -/
structure StoredMessage where
  msg : AgentMessage
  runId : String
  deriving DecidableEq, Repr

/-- `interface ActiveGroup`. -/
structure ActiveGroup where
  id : String
  startTime : Nat
  messages : List StoredMessage
  isComplete : Bool
  deriving DecidableEq, Repr

/-- One row of `interface MessageHistory`. -/
structure RunEntry where
  messages : List StoredMessage
  lastUpdated : Nat
  title : Option String := none
  agentName : Option String := none
  firstMessageTime : Option Nat := none
  taskDescription : Option String := none
  activeGroup : Option ActiveGroup := none
  deriving DecidableEq, Repr

/-- The persisted history map.  A JS object iterates its string keys in
insertion order, so the map is embedded as an insertion-ordered association
list; real histories never hold a key twice. -/
abbrev History : Type := List (String × RunEntry)

/-- `MAX_HISTORY_PER_RUN = 1000`. -/
def MAX_HISTORY_PER_RUN : Nat := 1000

/-- `MAX_HISTORY_RUNS = 50`. -/
def MAX_HISTORY_RUNS : Nat := 50

/-- `MAX_HISTORY_AGE = 7 * 24 * 60 * 60 * 1000` milliseconds. -/
def MAX_HISTORY_AGE : Nat := 7 * 24 * 60 * 60 * 1000

/-- `history[runId]` read access. -/
def lookupRun (h : History) (r : String) : Option RunEntry :=
  (h.find? (fun p => p.1 == r)).map (·.2)

/-- `history[runId] = e`: overwrite in place when the key exists, append in
insertion order when it does not. -/
def setRun (h : History) (r : String) (e : RunEntry) : History :=
  if h.any (fun p => p.1 == r) then
    h.map (fun p => if p.1 == r then (r, e) else p)
  else
    h ++ [(r, e)]

/-- `truncateText(text, maxLength)`. -/
def truncateText (text : String) (maxLength : Nat) : String :=
  if text = "" ∨ text.length ≤ maxLength then text
  else text.take maxLength ++ "..."

/-- JS truthiness of an optional string field: present and non-empty. -/
def strTruthy : Option String → Bool
  | some s => s != ""
  | none => false

/-- `generateRunTitle(content)`: strip one known verb/politeness prefix, strip
leading punctuation, strip one leading question word, truncate to 50, and fall
back when the remainder is too short. -/
def generateRunTitle (content : String) : String :=
  if content = "" then "新任务"
  else
    let prefixes : List String :=
      ["分析", "设计", "实现", "测试", "调试", "优化", "重构", "部署",
       "请", "帮我", "我需要", "麻烦你", "能否", "可以", "帮我", "帮我看一下",
       "检查", "查看", "找出", "解决", "修复", "创建", "编写", "开发"]
    let t0 := content.trim
    let t1 := match prefixes.find? (fun p => t0.startsWith p) with
      | some p => (t0.drop p.length).trim
      | none => t0
    let t2 := String.mk (t1.toList.dropWhile
      (fun ch => ch == '：' || ch == ':' || ch == '，' || ch == ',' || ch.isWhitespace))
    let questionWords : List String :=
      ["如何", "怎么", "怎样", "什么", "哪里", "为什么", "什么时候", "多久"]
    let t3 := match questionWords.find? (fun q => t2.startsWith q) with
      | some q => (t2.drop q.length).trim
      | none => t2
    let t4 := truncateText t3 50
    if t4 = "" ∨ t4.length < 2 then
      (if content.length > 20 then truncateText content 20 else "智能体任务")
    else t4

/-- `extractReadableInfo(runHistory, message)`: derive `agentName` from the
message source, `title`/`taskDescription` from the first usable text content,
and stamp `firstMessageTime`. -/
def extractReadableInfo (e : RunEntry) (m : AgentMessage) : RunEntry :=
  let e1 : RunEntry := match m.source with
    | some src =>
        if src ≠ "" then
          let parts := src.splitOn "."
          { e with agentName := some (if parts.length > 1 then parts.getLastD src else src) }
        else e
    | none => e
  let taskContent : String :=
    if strTruthy m.content then m.content.getD ""
    else match m.data with
      | some d =>
          if strTruthy d.task then d.task.getD ""
          else if strTruthy d.content then d.content.getD ""
          else if strTruthy d.name then d.name.getD ""
          else ""
      | none => ""
  let e2 : RunEntry :=
    if taskContent ≠ "" then
      { e1 with taskDescription := some (truncateText taskContent 100),
                title := some (generateRunTitle taskContent) }
    else
      { e1 with title := some (if m.type = "start" then "新任务" else "智能体任务") }
  { e2 with firstMessageTime := some m.timestamp }

/-- Lines 77-80 of `saveMessage`: `messages.slice(-MAX_HISTORY_PER_RUN)` when
the array has grown past the cap. -/
def capMessages (l : List StoredMessage) : List StoredMessage :=
  if l.length > MAX_HISTORY_PER_RUN then l.drop (l.length - MAX_HISTORY_PER_RUN) else l

/-- `cleanupHistory(history)`: (1) drop rows older than the age threshold;
(2) if the row count still exceeds the cap, sort ascending by `lastUpdated`
and drop the least-recently-updated rows down to the cap.  The source sorts
with the JS stable `Array.prototype.sort` under the total-preorder comparator
`a.lastUpdated - b.lastUpdated`; for such a comparator the stable ascending
sort is unique, so it is embedded as a stable insertion sort on the key. -/
def cleanupHistory (h : History) (now : Nat) : History :=
  let h1 : History := h.filter (fun p => decide (now - p.2.lastUpdated ≤ MAX_HISTORY_AGE))
  if h1.length > MAX_HISTORY_RUNS then
    let sorted := List.insertionSort (fun a b => a.2.lastUpdated ≤ b.2.lastUpdated) h1
    let toDelete := sorted.take (h1.length - MAX_HISTORY_RUNS)
    h1.filter (fun p => !(toDelete.any (fun q => q.1 == p.1)))
  else h1

/-- `saveMessage(runId, message)`: guard against an empty run id, lazily
create the row, extract readable info on `start` messages, append the stored
copy, truncate to the per-run cap, stamp `lastUpdated`, and run the global
eviction. -/
def saveMessage (h : History) (r : String) (m : AgentMessage) (now : Nat) : History :=
  if r = "" then h
  else
    let e0 : RunEntry := (lookupRun h r).getD
      { messages := [], lastUpdated := now, firstMessageTime := some m.timestamp }
    let e1 := if m.type = "start" then extractReadableInfo e0 m else e0
    let stored : StoredMessage := { msg := m, runId := r }
    let e2 : RunEntry :=
      { e1 with messages := capMessages (e1.messages ++ [stored]), lastUpdated := now }
    cleanupHistory (setRun h r e2) now

/-- `getMessagesForRun(runId)`: the row's messages with the `runId` field
stripped (returned at type `AgentMessage`). -/
def getMessagesForRun (h : History) (r : String) : List AgentMessage :=
  if r = "" then []
  else match lookupRun h r with
    | none => []
    | some e => e.messages.map (·.msg)

/-- `setRunTitle(runId, title)`. -/
def setRunTitle (h : History) (r : String) (title : String) (now : Nat) : History :=
  if r = "" then h
  else match lookupRun h r with
    | some e => setRun h r { e with title := some title, lastUpdated := now }
    | none => h

/-- `deleteRunHistory(runId)`. -/
def deleteRunHistory (h : History) (r : String) : History :=
  if r = "" then h
  else h.filter (fun p => !(p.1 == r))

/-- `saveActiveGroup(runId, activeGroup)` (no global eviction on this path,
as in the source). -/
def saveActiveGroup (h : History) (r : String) (ag : ActiveGroup) (now : Nat) : History :=
  if r = "" then h
  else
    let e0 : RunEntry := (lookupRun h r).getD { messages := [], lastUpdated := now }
    setRun h r { e0 with activeGroup := some ag, lastUpdated := now }

/-- `getActiveGroup(runId)`: `runHistory?.activeGroup || null`. -/
def getActiveGroup (h : History) (r : String) : Option ActiveGroup :=
  if r = "" then none
  else (lookupRun h r).bind (·.activeGroup)

/-- `clearActiveGroup(runId)`. -/
def clearActiveGroup (h : History) (r : String) (now : Nat) : History :=
  if r = "" then h
  else match lookupRun h r with
    | some e => setRun h r { e with activeGroup := none, lastUpdated := now }
    | none => h

/-- Iterated `saveMessage` over a list of (message, wall-clock time) pairs for
one run id. -/
def saveAll (h : History) (r : String) (msgs : List (AgentMessage × Nat)) : History :=
  msgs.foldl (fun acc p => saveMessage acc r p.1 p.2) h

/-! ## MCP tunnel responder (`src/server/toolServer.ts`, class `McpTunnel`) -/

/-- `MCP_PROTOCOL_VERSION`. -/
def MCP_PROTOCOL_VERSION : String := "2024-11-05"

namespace McpErrorCodes

/-- JSON-RPC reserved: parse error. -/
def PARSE_ERROR : Int := -32700
/-- JSON-RPC reserved: invalid request. -/
def INVALID_REQUEST : Int := -32600
/-- JSON-RPC reserved: method not found. -/
def METHOD_NOT_FOUND : Int := -32601
/-- JSON-RPC reserved: invalid params. -/
def INVALID_PARAMS : Int := -32602
/-- JSON-RPC reserved: internal error. -/
def INTERNAL_ERROR : Int := -32603
/-- MCP custom: tool not found. -/
def TOOL_NOT_FOUND : Int := -32001
/-- MCP custom: tool execution error (reported as a result flag, not an RPC error). -/
def TOOL_EXECUTION_ERROR : Int := -32002
/-- MCP custom: resource not found. -/
def RESOURCE_NOT_FOUND : Int := -32003
/-- MCP custom: not initialized. -/
def NOT_INITIALIZED : Int := -32004

end McpErrorCodes

/-- A thrown JS exception as `handleMcpRequest`'s catch block reads it: an
optional attached `code` plus a message. -/
structure McpThrown where
  code : Option Int
  message : String
  deriving DecidableEq, Repr

/-- A registered tool handler: `execute(args)` either returns a result
(already rendered to the text the tunnel would serialize) or throws with a
message. -/
structure ToolHandler where
  run : List (String × String) → Except String String

/-- The `ToolRegistry` consumed by the tunnel: `Map` iteration order is
insertion order, embedded as an association list. -/
abbrev ToolRegistry : Type := List (String × ToolHandler)

/-- `ToolRegistry.get(name)`. -/
def ToolRegistry.get (reg : ToolRegistry) (name : String) : Option ToolHandler :=
  (reg.find? (fun p => p.1 == name)).map (·.2)

/-- `McpContent`: a single content block. -/
structure McpContent where
  type : String
  text : String
  deriving DecidableEq, Repr

/-- `McpToolCallResult`. -/
structure McpToolCallResult where
  content : List McpContent
  isError : Bool
  deriving DecidableEq, Repr

/-- A JSON-RPC id (`string | number`). -/
abbrev RpcId : Type := String ⊕ Int

/-- The `params` payloads the dispatcher inspects.  `toolCall` carries the
`name` and the optional `arguments` (defaulted to `{}` when absent);
`shapeless` stands for any other payload, whose blind cast in the source
yields `undefined` fields. -/
inductive RpcParams
  | toolCall (name : String) (args : Option (List (String × String)))
  | readResource (uri : String)
  | shapeless
  deriving Repr

/-- The result payloads `dispatchMethod` can produce.  Only the tool-call
branch is structurally relevant to the claims; `initialize`, `tools/list` and
the resource methods are carried at the granularity the claims need. -/
inductive McpResult
  | initializeResult (protocolVersion : String) (instructions : String)
  | emptyResult
  | toolsList (tools : List String)
  | toolCallResult (r : McpToolCallResult)
  | resourcesList (resources : List String)
  | resourcesRead (contents : List McpContent)
  deriving DecidableEq, Repr

/-- `JsonRpcRequest`. -/
structure JsonRpcRequest where
  id : RpcId
  method : String
  params : RpcParams

/-- `JsonRpcError`. -/
structure JsonRpcError where
  code : Int
  message : String
  deriving DecidableEq, Repr

/-- `JsonRpcResponse`: exactly one of `result`/`error` is set by
`handleMcpRequest`. -/
structure JsonRpcResponse where
  id : RpcId
  result : Option McpResult
  error : Option JsonRpcError
  deriving DecidableEq, Repr

/-- `handleToolCall(params)`: an unregistered name throws a `TOOL_NOT_FOUND`
exception (turned into an RPC error one level up); a registered handler that
throws is caught here and reported as a successful result whose content is
flagged `isError: true`. -/
def handleToolCall (reg : ToolRegistry) (name : String)
    (args : List (String × String)) : Except McpThrown McpToolCallResult :=
  match reg.get name with
  | none =>
      Except.error { code := some McpErrorCodes.TOOL_NOT_FOUND,
                     message := "Tool not found: " ++ name }
  | some tool =>
      match tool.run args with
      | Except.ok result =>
          Except.ok { content := [{ type := "text", text := result }], isError := false }
      | Except.error errorMessage =>
          Except.ok { content := [{ type := "text", text := "Error: " ++ errorMessage }],
                      isError := true }

/-- `dispatchMethod(method, params)`.  `readFile` abstracts
`vscode.workspace.fs.readFile` (some text, or a read failure), `folders` the
workspace folder list.  A `tools/call` whose params are not tool-call shaped
looks up the name `undefined`, as the blind cast in the source does. -/
def dispatchMethod (reg : ToolRegistry) (folders : List String)
    (readFile : String → Option String) (method : String) (params : RpcParams) :
    Except McpThrown McpResult :=
  if method = "initialize" then
    Except.ok (McpResult.initializeResult MCP_PROTOCOL_VERSION
      "这是一个 VS Code AIAT 服务器，通过隧道提供文件操作、代码搜索和终端操作等工具。")
  else if method = "initialized" then Except.ok McpResult.emptyResult
  else if method = "ping" then Except.ok McpResult.emptyResult
  else if method = "tools/list" then Except.ok (McpResult.toolsList (reg.map (·.1)))
  else if method = "tools/call" then
    match params with
    | RpcParams.toolCall name args =>
        (handleToolCall reg name (args.getD [])).map McpResult.toolCallResult
    | _ =>
        Except.error { code := some McpErrorCodes.TOOL_NOT_FOUND,
                       message := "Tool not found: undefined" }
  else if method = "resources/list" then Except.ok (McpResult.resourcesList folders)
  else if method = "resources/read" then
    match params with
    | RpcParams.readResource uri =>
        (match readFile uri with
         | some text => Except.ok (McpResult.resourcesRead [{ type := "text", text := text }])
         | none =>
             Except.error { code := some McpErrorCodes.RESOURCE_NOT_FOUND,
                            message := "Resource not found: " ++ uri })
    | _ =>
        Except.error { code := some McpErrorCodes.RESOURCE_NOT_FOUND,
                       message := "Resource not found: undefined" }
  else
    Except.error { code := some McpErrorCodes.METHOD_NOT_FOUND,
                   message := "Method not found: " ++ method }

/-- `handleMcpRequest(request)`: dispatch, and turn any thrown exception into
a structured JSON-RPC error object (`err.code || INTERNAL_ERROR`).  The
function is total: no exception crosses the tunnel boundary. -/
def handleMcpRequest (reg : ToolRegistry) (folders : List String)
    (readFile : String → Option String) (req : JsonRpcRequest) : JsonRpcResponse :=
  match dispatchMethod reg folders readFile req.method req.params with
  | Except.ok r => { id := req.id, result := some r, error := none }
  | Except.error t =>
      { id := req.id, result := none,
        error := some { code := t.code.getD McpErrorCodes.INTERNAL_ERROR,
                        message := t.message } }

/-! ## WebSocket client transport-close path (`src/client/agentClient.ts`) -/

/-- `maxReconnectAttempts = 5`. -/
def maxReconnectAttempts : Nat := 5

/-- `reconnectDelay = 1000` milliseconds (the backoff base delay). -/
def reconnectDelayMs : Nat := 1000

/-- The client-side mutable fields relevant to the close/reconnect path. -/
structure ClientState where
  sm : SMState
  reconnectAttempts : Nat
  deriving DecidableEq, Repr

/-- Externally observable side effects of the close/reconnect path:
timer manipulation, the `_onError` event, and `setTimeout`-scheduled
reconnect attempts. -/
inductive ClientAction
  | stopHeartbeat
  | clearReconnectTimer
  | fireErrorEvent (message : String) (retryable : Bool)
  | scheduleReconnect (delayMs : Nat)
  deriving DecidableEq, Repr

/-- The `ws.on('close', ...)` handler: `cleanup()` (stop heartbeat and health
check, clear the reconnect timer, reset the attempt counter), state →
`closed`, task → `idle`, and for a non-normal close code build a retryable
error (`retryable` iff the code is not 1001) and fire it on the `_onError`
event.  Note: no reconnect is scheduled on this path; the error is only fired
to `_onError` subscribers, and `errorHandler.createError` does not invoke the
error-handler listeners. -/
def handleTransportClose (c : ClientState) (code : Nat) : ClientState × List ClientAction :=
  let c1 : ClientState := { c with reconnectAttempts := 0 }
  let sm1 := (updateConnectionState c1.sm ConnectionState.closed none).1
  let sm2 := (updateTaskState sm1 TaskState.idle none).1
  let c2 : ClientState := { c1 with sm := sm2 }
  let baseActs := [ClientAction.stopHeartbeat, ClientAction.clearReconnectTimer]
  if code ≠ 1000 then
    (c2, baseActs ++
      [ClientAction.fireErrorEvent ("WebSocket连接意外关闭: " ++ toString code)
        (decide (code ≠ 1001))])
  else
    (c2, baseActs)

/-- `handleConnectionLoss()`: give up with a terminal `error` state once the
attempt budget is exhausted, otherwise bump the counter, move to
`connecting`, and schedule a reconnect after
`min(reconnectDelay * 2^(attempts-1), 30000)` milliseconds. -/
def handleConnectionLoss (c : ClientState) : ClientState × List ClientAction :=
  if c.reconnectAttempts ≥ maxReconnectAttempts then
    ({ c with sm := (updateConnectionState c.sm ConnectionState.error
                      (some "连接丢失，达到最大重连次数")).1 }, [])
  else
    let attempts := c.reconnectAttempts + 1
    let sm1 := (updateConnectionState c.sm ConnectionState.connecting none).1
    let delay := min (reconnectDelayMs * 2 ^ (attempts - 1)) 30000
    ({ sm := sm1, reconnectAttempts := attempts },
     [ClientAction.scheduleReconnect delay])

/-! ## Call-sequence machinery for the state manager -/

/-- Run a sequence of `updateConnectionState` calls, accumulating the
notifications fired and the sub-sequence of effective (non-suppressed)
calls. -/
def runConnUpdates (s : SMState) :
    List (ConnectionState × Option String) →
    SMState × List Notification × List (ConnectionState × Option String)
  | [] => (s, [], [])
  | (c, e) :: rest =>
      let r := updateConnectionState s c e
      let eff : List (ConnectionState × Option String) :=
        if s.state.connection = c ∧ e = none then [] else [(c, e)]
      let rec' := runConnUpdates r.1 rest
      (rec'.1, r.2 ++ rec'.2.1, eff ++ rec'.2.2)

/-- The number of connection-scoped notifications in a notification trace. -/
def countConnNotifs (l : List Notification) : Nat :=
  l.countP (fun n => match n with | Notification.conn _ => true | _ => false)

/-! ## Helper lemmas -/

/-- After any `updateConnectionState(c, e)` call the connection equals `c`:
an effective call writes it, and a suppressed call required it already. -/
theorem updateConnectionState_connection (s : SMState) (c : ConnectionState)
    (e : Option String) : (updateConnectionState s c e).1.state.connection = c := by
  unfold updateConnectionState
  split
  · next h => exact h.1
  · simp only [performConnectionStateUpdate, syncConnectionWithTaskState]
    split <;> simp

/-- An effective connection update fires exactly one connection-scoped
notification. -/
theorem countConn_perform (s : SMState) (c : ConnectionState) (e : Option String) :
    countConnNotifs (performConnectionStateUpdate s c e).2 = 1 := by
  simp only [performConnectionStateUpdate, syncConnectionWithTaskState]
  split <;> split <;> simp [countConnNotifs, List.countP_cons, List.countP_nil]

/-- `getLast?`-with-default distributes over `cons`. -/
theorem getLast?_cons_getD {α : Type} : ∀ (l : List α) (c x : α),
    ((c :: l).getLast?).getD x = (l.getLast?).getD c
  | [], _, _ => by simp
  | y :: ys, c, x => by
      rw [List.getLast?_cons_cons, getLast?_cons_getD ys y x, getLast?_cons_getD ys y c]

/-! ## Claims about the state manager -/

/-- C1: whenever a connection-state update transitions the connection into
`error` or `closed`, the task is force-reset to `idle` within the same
update, a reset from a non-`idle` task fires its own task-state notification,
and in the reverse direction no task-state update (explicit or batched) ever
changes the connection state. -/
theorem connection_drop_forces_task_idle (s : SMState) (c : ConnectionState)
    (e : Option String)
    (hc : c = ConnectionState.error ∨ c = ConnectionState.closed) :
    ((performConnectionStateUpdate s c e).1.state.task = TaskState.idle
      ∧ (s.state.task ≠ TaskState.idle →
          Notification.task TaskState.idle ∈ (performConnectionStateUpdate s c e).2))
    ∧ (∀ (t : TaskState) (e2 : Option String),
        (updateTaskState s t e2).1.state.connection = s.state.connection
        ∧ (batchUpdateStates s none (some t)).1.state.connection = s.state.connection) := by
  constructor
  · simp only [performConnectionStateUpdate, syncConnectionWithTaskState]
    by_cases ht : s.state.task = TaskState.idle
    · rcases hc with h | h <;> subst h <;> simp [ht]
    · rcases hc with h | h <;> subst h <;> simp [ht]
  · intro t e2
    constructor
    · unfold updateTaskState
      split
      · rfl
      · simp [performTaskStateUpdate]
    · simp only [batchUpdateStates]
      split
      · split <;> rfl
      · rfl

/-- C1 witness: dropping a connected/running client to `closed` resets the
task and fires the task-idle notification. -/
theorem connection_drop_forces_task_idle_witness :
    (ConnectionState.closed = ConnectionState.error
        ∨ ConnectionState.closed = ConnectionState.closed)
    ∧ (performConnectionStateUpdate
        { state := { connection := ConnectionState.connected, task := TaskState.running,
                     runId := none, lastError := none, lastMessage := none },
          stopTimeout := none }
        ConnectionState.closed none).1.state.task = TaskState.idle :=
  ⟨Or.inr rfl,
   (connection_drop_forces_task_idle
      { state := { connection := ConnectionState.connected, task := TaskState.running,
                   runId := none, lastError := none, lastMessage := none },
        stopTimeout := none }
      ConnectionState.closed none (Or.inr rfl)).1.1⟩

/-- C2: entering `stopping` arms the watchdog timer with the 5000 ms delay,
and if the timer fires while the task is still `stopping` (no transition out
of `stopping` happened in those 5 seconds) the manager forces the task to
`idle` with the synthetic non-null stop-timed-out `lastError`, clearing the
timer. -/
theorem stop_watchdog_forces_idle (s : SMState) (e : Option String)
    (h : s.state.task ≠ TaskState.stopping) :
    (updateTaskState s TaskState.stopping e).1.stopTimeout = some STOP_TIMEOUT_MS
    ∧ STOP_TIMEOUT_MS = 5000
    ∧ (fireStopTimeout (updateTaskState s TaskState.stopping e).1).1.state.task
        = TaskState.idle
    ∧ (fireStopTimeout (updateTaskState s TaskState.stopping e).1).1.state.lastError
        = some stopTimeoutMessage := by
  have hupd : (updateTaskState s TaskState.stopping e).1
      = (performTaskStateUpdate s TaskState.stopping e).1 := by
    unfold updateTaskState
    split
    · next hg => exact absurd hg.1 h
    · rfl
  refine ⟨?_, rfl, ?_, ?_⟩ <;> rw [hupd] <;>
    simp [performTaskStateUpdate, handleStopTimeoutTimer, fireStopTimeout,
      updateTaskState, stopTimeoutMessage]

/-- C2 witness: a fresh (idle) manager moved to `stopping`. -/
theorem stop_watchdog_forces_idle_witness :
    initialSMState.state.task ≠ TaskState.stopping
    ∧ (updateTaskState initialSMState TaskState.stopping none).1.stopTimeout
        = some STOP_TIMEOUT_MS
    ∧ (fireStopTimeout (updateTaskState initialSMState TaskState.stopping none).1).1.state.task
        = TaskState.idle :=
  ⟨by decide,
   (stop_watchdog_forces_idle initialSMState none (by decide)).1,
   (stop_watchdog_forces_idle initialSMState none (by decide)).2.2.1⟩

/-- C6 counterexample: a `completion` message whose status is the string
`complete` (the value the spec table names) does not transition the task
state at all — a running task stays `running` and does not become
`completed`; only the string `completed` is matched by the source. -/
theorem completion_complete_counterexample :
    (inferStateFromMessage
        { state := { connection := ConnectionState.connected, task := TaskState.running,
                     runId := none, lastError := none, lastMessage := none },
          stopTimeout := none }
        { type := "completion", status := some "complete" }).1.state.task
      = TaskState.running
    ∧ TaskState.running ≠ TaskState.completed := by
  decide

/-- C6 (amended): for a `completion` message, status `cancelled` drives the
task to `idle` and status `completed` drives it to `completed`; the status
value `complete` leaves the task state unchanged. -/
theorem completion_status_transitions (s : SMState) (m : Message)
    (hm : m.type = "completion") :
    (m.status = some "cancelled" →
        (inferStateFromMessage s m).1.state.task = TaskState.idle)
    ∧ (m.status = some "completed" →
        (inferStateFromMessage s m).1.state.task = TaskState.completed)
    ∧ (m.status = some "complete" →
        (inferStateFromMessage s m).1.state.task = s.state.task) := by
  refine ⟨fun hs => ?_, fun hs => ?_, fun hs => ?_⟩
  · simp only [inferStateFromMessage, inferredConnection, inferredTask, hm, hs,
      batchUpdateStates]
    norm_num
    by_cases ht : TaskState.idle = s.state.task <;> simp [ht]
  · simp only [inferStateFromMessage, inferredConnection, inferredTask, hm, hs,
      batchUpdateStates]
    norm_num
    by_cases ht : TaskState.completed = s.state.task <;> simp [ht]
  · simp [inferStateFromMessage, inferredConnection, inferredTask, hm, hs,
      batchUpdateStates]

/-- C6 witness for the amended claim: a cancelled completion on a running
task. -/
theorem completion_status_transitions_witness :
    ({ type := "completion", status := some "cancelled" : Message }).type = "completion"
    ∧ (inferStateFromMessage
        { state := { connection := ConnectionState.connected, task := TaskState.running,
                     runId := none, lastError := none, lastMessage := none },
          stopTimeout := none }
        { type := "completion", status := some "cancelled" }).1.state.task
        = TaskState.idle :=
  ⟨rfl,
   (completion_status_transitions
      { state := { connection := ConnectionState.connected, task := TaskState.running,
                   runId := none, lastError := none, lastMessage := none },
        stopTimeout := none }
      { type := "completion", status := some "cancelled" } rfl).1 rfl⟩

/-- C9 counterexample: with the task `stopping` and the watchdog armed, an
inbound `stop` message takes the task out of `stopping` through the batched
update path, yet the timer stays armed — the pending stop-watchdog timer is
not cancelled on this exit path. -/
theorem stop_timer_survives_batched_exit :
    (inferStateFromMessage
        { state := { connection := ConnectionState.connected, task := TaskState.stopping,
                     runId := none, lastError := none, lastMessage := none },
          stopTimeout := some STOP_TIMEOUT_MS }
        { type := "stop" }).1.state.task = TaskState.idle
    ∧ (inferStateFromMessage
        { state := { connection := ConnectionState.connected, task := TaskState.stopping,
                     runId := none, lastError := none, lastMessage := none },
          stopTimeout := some STOP_TIMEOUT_MS }
        { type := "stop" }).1.stopTimeout = some STOP_TIMEOUT_MS := by
  decide

/-- C9 (amended): leaving `stopping` through an explicit `updateTaskState`
call cancels the pending watchdog timer, but the batched message-inferred
path and the connection-driven force-reset leave the timer slot untouched;
the stale timer is harmless because its callback re-checks that the task is
still `stopping` and otherwise does nothing. -/
theorem stop_timer_cancellation (s : SMState) (t : TaskState) (e : Option String)
    (hs : s.state.task = TaskState.stopping) (ht : t ≠ TaskState.stopping) :
    (updateTaskState s t e).1.stopTimeout = none
    ∧ (∀ (c : Option ConnectionState) (topt : Option TaskState),
        (batchUpdateStates s c topt).1.stopTimeout = s.stopTimeout)
    ∧ (∀ (cNew : ConnectionState) (eOpt : Option String),
        (performConnectionStateUpdate s cNew eOpt).1.stopTimeout = s.stopTimeout)
    ∧ (∀ s2 : SMState, s2.state.task ≠ TaskState.stopping →
        fireStopTimeout s2 = (s2, [])) := by
  refine ⟨?_, fun c topt => ?_, fun cNew eOpt => ?_, fun s2 h2 => ?_⟩
  · unfold updateTaskState
    split
    · next hg => exact absurd (hs ▸ hg.1).symm ht
    · simp [performTaskStateUpdate, handleStopTimeoutTimer, hs, ht]
  · simp only [batchUpdateStates]
    split <;> rfl
  · simp only [performConnectionStateUpdate, syncConnectionWithTaskState]
    split <;> rfl
  · simp [fireStopTimeout, h2]

/-- C9 amended-claim witness: explicit exit from `stopping` clears the armed
timer. -/
theorem stop_timer_cancellation_witness :
    ({ state := { connection := ConnectionState.connected, task := TaskState.stopping,
                  runId := none, lastError := none, lastMessage := none },
       stopTimeout := some STOP_TIMEOUT_MS : SMState }).state.task = TaskState.stopping
    ∧ TaskState.idle ≠ TaskState.stopping
    ∧ (updateTaskState
        { state := { connection := ConnectionState.connected, task := TaskState.stopping,
                     runId := none, lastError := none, lastMessage := none },
          stopTimeout := some STOP_TIMEOUT_MS }
        TaskState.idle none).1.stopTimeout = none :=
  ⟨rfl, by decide,
   (stop_timer_cancellation
      { state := { connection := ConnectionState.connected, task := TaskState.stopping,
                   runId := none, lastError := none, lastMessage := none },
        stopTimeout := some STOP_TIMEOUT_MS }
      TaskState.idle none rfl (by decide)).1⟩

/-- C8: over any sequence of `updateConnectionState` calls, the final
connection equals the last non-suppressed value passed (the initial
connection when every call was suppressed), and exactly one connection-scoped
notification fires per effective (non-idempotent) call — a call whose state
equals the current one and carries no error is a no-op. -/
theorem conn_updates_last_effective (s : SMState)
    (calls : List (ConnectionState × Option String)) :
    (runConnUpdates s calls).1.state.connection
      = (((runConnUpdates s calls).2.2.map Prod.fst).getLast?).getD s.state.connection
    ∧ countConnNotifs (runConnUpdates s calls).2.1
      = (runConnUpdates s calls).2.2.length := by
  induction calls generalizing s with
  | nil => simp [runConnUpdates, countConnNotifs]
  | cons call rest ih =>
      obtain ⟨c, e⟩ := call
      by_cases hsup : s.state.connection = c ∧ e = none
      · have hupd : updateConnectionState s c e = (s, []) := by
          unfold updateConnectionState
          simp [hsup]
        simp only [runConnUpdates, hupd, if_pos hsup]
        simpa [countConnNotifs] using ih s
      · have hupd : updateConnectionState s c e = performConnectionStateUpdate s c e := by
          unfold updateConnectionState
          simp [hsup]
        have hconn : (performConnectionStateUpdate s c e).1.state.connection = c := by
          have := updateConnectionState_connection s c e
          rwa [hupd] at this
        have hcount := countConn_perform s c e
        obtain ⟨ih1, ih2⟩ := ih (performConnectionStateUpdate s c e).1
        constructor
        · simp only [runConnUpdates, hupd, if_neg hsup, List.map_cons, List.map_append,
            List.map_nil]
          rw [List.singleton_append, getLast?_cons_getD, ih1, hconn]
        · simp only [runConnUpdates, hupd, if_neg hsup, countConnNotifs, List.countP_append]
          rw [← countConnNotifs, ← countConnNotifs, ih2, hcount]
          simp [Nat.add_comm]

/-! ## Helper lemmas for the message store -/

/-- The stored copy `saveMessage` appends: the message plus the run id. -/
def storedOf (r : String) (m : AgentMessage) : StoredMessage :=
  { msg := m, runId := r }

/-- Iterated append-and-truncate on one run's message array, as `saveMessage`
performs it. -/
def runMessagesAfter (init : List StoredMessage) (r : String)
    (msgs : List (AgentMessage × Nat)) : List StoredMessage :=
  msgs.foldl (fun l p => capMessages (l ++ [storedOf r p.1])) init

/-- Keeping the most recent `MAX_HISTORY_PER_RUN` elements, written as one
unconditional `drop`. -/
def dropToCap (l : List StoredMessage) : List StoredMessage :=
  l.drop (l.length - MAX_HISTORY_PER_RUN)

theorem capMessages_eq_dropToCap (l : List StoredMessage) :
    capMessages l = dropToCap l := by
  unfold capMessages dropToCap
  split
  · rfl
  · next h => rw [Nat.sub_eq_zero_of_le (by omega), List.drop_zero]

theorem capMessages_length (l : List StoredMessage) :
    (capMessages l).length ≤ MAX_HISTORY_PER_RUN := by
  unfold capMessages
  split
  · next h => simp only [List.length_drop]; omega
  · next h => omega

theorem dropToCap_append_dropToCap (l t : List StoredMessage) :
    dropToCap (dropToCap l ++ t) = dropToCap (l ++ t) := by
  unfold dropToCap
  rcases le_or_lt l.length MAX_HISTORY_PER_RUN with h | h
  · rw [Nat.sub_eq_zero_of_le h, List.drop_zero]
  · have hlen : (l.drop (l.length - MAX_HISTORY_PER_RUN)).length = MAX_HISTORY_PER_RUN := by
      simp only [List.length_drop]
      omega
    rw [List.drop_append_eq_append_drop, List.drop_append_eq_append_drop,
      List.drop_drop, List.length_append, List.length_append, hlen]
    have h1 : MAX_HISTORY_PER_RUN + t.length - MAX_HISTORY_PER_RUN = t.length := by omega
    rw [h1]
    have e1 : l.length - MAX_HISTORY_PER_RUN + t.length
        = l.length + t.length - MAX_HISTORY_PER_RUN := by omega
    have e2 : t.length - MAX_HISTORY_PER_RUN
        = l.length + t.length - MAX_HISTORY_PER_RUN - l.length := by omega
    rw [e1, e2]

theorem runMessagesAfter_eq (r : String) :
    ∀ (msgs : List (AgentMessage × Nat)) (init : List StoredMessage),
      init.length ≤ MAX_HISTORY_PER_RUN →
      runMessagesAfter init r msgs
        = dropToCap (init ++ msgs.map (fun p => storedOf r p.1))
  | [], init, h => by
      simp [runMessagesAfter, dropToCap, Nat.sub_eq_zero_of_le h]
  | p :: rest, init, h => by
      have hstep : runMessagesAfter init r (p :: rest)
          = runMessagesAfter (capMessages (init ++ [storedOf r p.1])) r rest := rfl
      rw [hstep, runMessagesAfter_eq r rest _ (capMessages_length _),
        capMessages_eq_dropToCap, dropToCap_append_dropToCap]
      simp [List.append_assoc]

theorem extractReadableInfo_messages (e : RunEntry) (m : AgentMessage) :
    (extractReadableInfo e m).messages = e.messages := by
  unfold extractReadableInfo
  rcases m.source with _ | src <;> rcases m.data with _ | d <;>
    simp only <;> split_ifs <;> rfl

theorem lookupRun_single (r : String) (e : RunEntry) :
    lookupRun [(r, e)] r = some e := by
  simp [lookupRun, List.find?]

theorem setRun_single (r : String) (e e2 : RunEntry) :
    setRun [(r, e)] r e2 = [(r, e2)] := by
  simp [setRun, List.any_cons]

theorem cleanupHistory_single (r : String) (e : RunEntry) (now : Nat)
    (h : e.lastUpdated = now) : cleanupHistory [(r, e)] now = [(r, e)] := by
  simp [cleanupHistory, h, MAX_HISTORY_RUNS, MAX_HISTORY_AGE]

/-- `saveMessage` on a one-run history with the matching id touches only that
run and appends-and-truncates its message array. -/
theorem saveMessage_single (r : String) (hr : r ≠ "") (e : RunEntry)
    (m : AgentMessage) (now : Nat) :
    ∃ e2 : RunEntry, saveMessage [(r, e)] r m now = [(r, e2)]
      ∧ e2.messages = capMessages (e.messages ++ [storedOf r m]) := by
  refine ⟨{ (if m.type = "start" then extractReadableInfo e m else e) with
            messages := capMessages (e.messages ++ [storedOf r m]),
            lastUpdated := now }, ?_, rfl⟩
  unfold saveMessage
  rw [if_neg hr, lookupRun_single]
  simp only [Option.getD_some]
  by_cases hm : m.type = "start"
  · simp only [if_pos hm, extractReadableInfo_messages]
    rw [setRun_single]
    exact cleanupHistory_single _ _ _ rfl
  · simp only [if_neg hm]
    rw [setRun_single]
    exact cleanupHistory_single _ _ _ rfl

/-- `saveMessage` into the empty history creates the run with exactly the one
stored message. -/
theorem saveMessage_empty (r : String) (hr : r ≠ "") (m : AgentMessage) (now : Nat) :
    ∃ e2 : RunEntry, saveMessage [] r m now = [(r, e2)]
      ∧ e2.messages = [storedOf r m] := by
  have hset : ∀ e : RunEntry, setRun [] r e = [(r, e)] := by
    intro e
    simp [setRun]
  refine ⟨{ (if m.type = "start" then
              extractReadableInfo
                { messages := [], lastUpdated := now, firstMessageTime := some m.timestamp } m
            else
              { messages := [], lastUpdated := now, firstMessageTime := some m.timestamp }) with
            messages := capMessages ([] ++ [storedOf r m]),
            lastUpdated := now }, ?_, rfl⟩
  unfold saveMessage
  rw [if_neg hr]
  have hlook : lookupRun [] r = none := rfl
  rw [hlook]
  simp only [Option.getD_none]
  by_cases hm : m.type = "start"
  · simp only [if_pos hm, extractReadableInfo_messages]
    rw [hset]
    exact cleanupHistory_single _ _ _ rfl
  · simp only [if_neg hm]
    rw [hset]
    exact cleanupHistory_single _ _ _ rfl

/-- Iterating `saveMessage` on a one-run history folds `runMessagesAfter`
over that run's messages. -/
theorem saveAll_single (r : String) (hr : r ≠ "") :
    ∀ (msgs : List (AgentMessage × Nat)) (e : RunEntry),
      ∃ e2 : RunEntry, saveAll [(r, e)] r msgs = [(r, e2)]
        ∧ e2.messages = runMessagesAfter e.messages r msgs
  | [], e => ⟨e, rfl, rfl⟩
  | p :: rest, e => by
      obtain ⟨e1, he1, hm1⟩ := saveMessage_single r hr e p.1 p.2
      obtain ⟨e2, he2, hm2⟩ := saveAll_single r hr rest e1
      refine ⟨e2, ?_, ?_⟩
      · show saveAll (saveMessage [(r, e)] r p.1 p.2) r rest = [(r, e2)]
        rw [he1, he2]
      · rw [hm2, hm1]
        rfl

theorem setRun_mem (h : History) (r : String) (e : RunEntry)
    (p : String × RunEntry) (hp : p ∈ setRun h r e) : p ∈ h ∨ p.2 = e := by
  unfold setRun at hp
  split at hp
  · obtain ⟨q, hq, hfq⟩ := List.mem_map.mp hp
    by_cases hqr : (q.1 == r) = true
    · right
      rw [if_pos hqr] at hfq
      rw [← hfq]
    · left
      rw [if_neg hqr] at hfq
      rwa [hfq] at hq
  · rw [List.mem_append] at hp
    rcases hp with hp | hp
    · exact Or.inl hp
    · right
      simp only [List.mem_singleton] at hp
      rw [hp]

theorem cleanupHistory_subset (h : History) (now : Nat) (p : String × RunEntry)
    (hp : p ∈ cleanupHistory h now) : p ∈ h := by
  simp only [cleanupHistory] at hp
  split at hp
  · exact (List.mem_filter.mp (List.mem_filter.mp hp).1).1
  · exact (List.mem_filter.mp hp).1

theorem cleanupHistory_length (h : History) (now : Nat) :
    (cleanupHistory h now).length ≤ MAX_HISTORY_RUNS := by
  simp only [cleanupHistory]
  set h1 : History :=
    h.filter (fun p => decide (now - p.2.lastUpdated ≤ MAX_HISTORY_AGE)) with hh1
  split
  · next hgt =>
      set sorted :=
        List.insertionSort (fun a b => a.2.lastUpdated ≤ b.2.lastUpdated) h1 with hs
      set k := h1.length - MAX_HISTORY_RUNS with hk
      set P : String × RunEntry → Bool :=
        fun p => !((sorted.take k).any (fun q => q.1 == p.1)) with hP
      have hperm : sorted.Perm h1 := List.perm_insertionSort _ _
      have hlen_eq : (h1.filter P).length = (sorted.filter P).length :=
        ((hperm.filter P).length_eq).symm
      have hsplit : sorted = sorted.take k ++ sorted.drop k :=
        (List.take_append_drop k sorted).symm
      have htake_nil : (sorted.take k).filter P = [] := by
        rw [List.filter_eq_nil_iff]
        intro q hq
        simp only [hP, Bool.not_eq_true', Bool.not_eq_false]
        exact List.any_eq_true.mpr ⟨q, hq, by simp⟩
      calc (h1.filter P).length
          = (sorted.filter P).length := hlen_eq
        _ = (((sorted.take k) ++ (sorted.drop k)).filter P).length := by rw [← hsplit]
        _ = ((sorted.take k).filter P).length + ((sorted.drop k).filter P).length := by
              rw [List.filter_append, List.length_append]
        _ = ((sorted.drop k).filter P).length := by rw [htake_nil]; simp
        _ ≤ (sorted.drop k).length := List.length_filter_le _ _
        _ = sorted.length - k := by rw [List.length_drop]
        _ = h1.length - k := by rw [hperm.length_eq]
        _ ≤ MAX_HISTORY_RUNS := by omega
  · next hle => omega

/-! ## Claims about the message store -/

/-- A sample minimal message used in concrete scenarios. -/
def sampleMessage : AgentMessage :=
  { type := "message", timestamp := 0, direction := Direction.incoming }

/-- A history of 50 runs with ids `"0"`‥`"49"` and strictly increasing
`lastUpdated` values `1`‥`50`. -/
def sampleHistory50 : History :=
  (List.range 50).map (fun i => (toString i, { messages := [], lastUpdated := i + 1 }))

/-- `MAX_HISTORY_PER_RUN + 1` distinct messages for the overflow scenario. -/
def overflowMsgs : List (AgentMessage × Nat) :=
  (List.range (MAX_HISTORY_PER_RUN + 1)).map
    (fun i => ({ type := "message", timestamp := i, direction := Direction.incoming }, i))

/-- C4: after a `saveMessage` call every run's stored message array has
length at most 1000 (given that the incoming history respected the cap, which
every history built by `saveMessage` does), the number of tracked rows is at
most 50, feeding 1001 messages to one run leaves exactly the most recent
1000, and saving a message for a 51st distinct run id leaves exactly 50 rows
with the least-recently-updated one (id `"0"`, `lastUpdated = 1`) dropped. -/
theorem save_message_caps :
    (∀ (h : History) (r : String) (m : AgentMessage) (now : Nat),
        (∀ p ∈ h, p.2.messages.length ≤ MAX_HISTORY_PER_RUN) →
        ∀ p ∈ saveMessage h r m now, p.2.messages.length ≤ MAX_HISTORY_PER_RUN)
    ∧ (∀ (h : History) (r : String) (m : AgentMessage) (now : Nat),
        r ≠ "" → (saveMessage h r m now).length ≤ MAX_HISTORY_RUNS)
    ∧ (∀ (r : String) (msgs : List (AgentMessage × Nat)),
        r ≠ "" → msgs.length = MAX_HISTORY_PER_RUN + 1 →
        getMessagesForRun (saveAll [] r msgs) r = (msgs.map Prod.fst).drop 1
          ∧ (getMessagesForRun (saveAll [] r msgs) r).length = MAX_HISTORY_PER_RUN)
    ∧ ((saveMessage sampleHistory50 "x" sampleMessage 1000).length = MAX_HISTORY_RUNS
        ∧ (saveMessage sampleHistory50 "x" sampleMessage 1000).map Prod.fst
            = ((List.range 50).map (fun i => toString i)).drop 1 ++ ["x"]) := by
  refine ⟨?_, ?_, ?_, ?_⟩
  · intro h r m now hcap p hp
    by_cases hr : r = ""
    · rw [hr] at hp
      rw [show saveMessage h "" m now = h from rfl] at hp
      exact hcap p hp
    · simp only [saveMessage, if_neg hr] at hp
      rcases setRun_mem _ _ _ _ (cleanupHistory_subset _ _ _ hp) with hmem | heq
      · exact hcap p hmem
      · rw [heq]
        exact capMessages_length _
  · intro h r m now hr
    simp only [saveMessage, if_neg hr]
    exact cleanupHistory_length _ _
  · intro r msgs hr hlen
    cases msgs with
    | nil => simp [MAX_HISTORY_PER_RUN] at hlen
    | cons p rest =>
        obtain ⟨e1, he1, hm1⟩ := saveMessage_empty r hr p.1 p.2
        obtain ⟨e2, he2, hm2⟩ := saveAll_single r hr rest e1
        have hstep : saveAll [] r (p :: rest)
            = saveAll (saveMessage [] r p.1 p.2) r rest := rfl
        rw [hstep, he1, he2]
        have hcape1 : e1.messages.length ≤ MAX_HISTORY_PER_RUN := by
          rw [hm1]
          simp [MAX_HISTORY_PER_RUN]
        rw [runMessagesAfter_eq r rest e1.messages hcape1, hm1] at hm2
        have hrestlen : rest.length = MAX_HISTORY_PER_RUN := by
          simp only [List.length_cons] at hlen
          omega
        have hfull : ([storedOf r p.1] ++ rest.map (fun q => storedOf r q.1)).length
            = MAX_HISTORY_PER_RUN + 1 := by
          simp [hrestlen]
        have hdrop : dropToCap ([storedOf r p.1] ++ rest.map (fun q => storedOf r q.1))
            = rest.map (fun q => storedOf r q.1) := by
          unfold dropToCap
          rw [hfull, Nat.add_sub_cancel_left, List.singleton_append, List.drop_one,
            List.tail_cons]
        rw [hdrop] at hm2
        constructor
        · simp [getMessagesForRun, hr, lookupRun_single, hm2, storedOf]
        · simp [getMessagesForRun, hr, lookupRun_single, hm2, hrestlen]
  · constructor
    · decide
    · decide

/-- C4 witness: the capped parts applied at a fresh history and at the
1001-message overflow list. -/
theorem save_message_caps_witness :
    (∀ p ∈ saveMessage [] "r" sampleMessage 5, p.2.messages.length ≤ MAX_HISTORY_PER_RUN)
    ∧ (saveMessage [] "r" sampleMessage 5).length ≤ MAX_HISTORY_RUNS
    ∧ getMessagesForRun (saveAll [] "r" overflowMsgs) "r"
        = (overflowMsgs.map Prod.fst).drop 1 :=
  ⟨save_message_caps.1 [] "r" sampleMessage 5 (by simp),
   save_message_caps.2.1 [] "r" sampleMessage 5 (by decide),
   (save_message_caps.2.2.1 "r" overflowMsgs (by decide)
      (by simp [overflowMsgs])).1⟩

/-- C5: saving any sequence of messages (within the per-run cap) for a run id
and reading them back with `getMessagesForRun` round-trips content and
ordering exactly; the returned objects are the original `AgentMessage`s, with
the `runId` field stripped. -/
theorem save_roundtrip (r : String) (msgs : List (AgentMessage × Nat))
    (hr : r ≠ "") (hlen : msgs.length ≤ MAX_HISTORY_PER_RUN) :
    getMessagesForRun (saveAll [] r msgs) r = msgs.map Prod.fst := by
  cases msgs with
  | nil =>
      simp [saveAll, getMessagesForRun, lookupRun, hr]
  | cons p rest =>
      obtain ⟨e1, he1, hm1⟩ := saveMessage_empty r hr p.1 p.2
      obtain ⟨e2, he2, hm2⟩ := saveAll_single r hr rest e1
      have hstep : saveAll [] r (p :: rest) = saveAll (saveMessage [] r p.1 p.2) r rest := rfl
      rw [hstep, he1, he2]
      have hcap : e1.messages.length ≤ MAX_HISTORY_PER_RUN := by
        rw [hm1]
        simp [MAX_HISTORY_PER_RUN]
      rw [runMessagesAfter_eq r rest e1.messages hcap, hm1] at hm2
      have hfull : ([storedOf r p.1] ++ rest.map (fun q => storedOf r q.1)).length
          ≤ MAX_HISTORY_PER_RUN := by
        simp only [List.length_append, List.length_cons, List.length_nil, List.length_map]
        simp only [List.length_cons] at hlen
        omega
      have hdrop : dropToCap ([storedOf r p.1] ++ rest.map (fun q => storedOf r q.1))
          = [storedOf r p.1] ++ rest.map (fun q => storedOf r q.1) := by
        unfold dropToCap
        rw [Nat.sub_eq_zero_of_le hfull, List.drop_zero]
      rw [hdrop] at hm2
      simp [getMessagesForRun, hr, lookupRun_single, hm2, storedOf]

/-- C5 witness: a two-message round trip. -/
theorem save_roundtrip_witness :
    ("run1" : String) ≠ ""
    ∧ getMessagesForRun
        (saveAll []
          "run1"
          [({ type := "start", content := some "hello", timestamp := 1,
              direction := Direction.outgoing }, 10),
           ({ type := "message", content := some "world", timestamp := 2,
              direction := Direction.incoming }, 20)])
        "run1"
      = [{ type := "start", content := some "hello", timestamp := 1,
           direction := Direction.outgoing },
         { type := "message", content := some "world", timestamp := 2,
           direction := Direction.incoming }] :=
  ⟨by decide,
   save_roundtrip "run1"
     [({ type := "start", content := some "hello", timestamp := 1,
         direction := Direction.outgoing }, 10),
      ({ type := "message", content := some "world", timestamp := 2,
         direction := Direction.incoming }, 20)]
     (by decide) (by norm_num [MAX_HISTORY_PER_RUN])⟩

/-- C10: every store operation taking a run id is a degenerate no-op on the
empty run id: nothing is persisted, reads return the empty list or `null`. -/
theorem empty_run_id_noop (h : History) (m : AgentMessage) (now : Nat)
    (title : String) (ag : ActiveGroup) :
    saveMessage h "" m now = h
    ∧ getMessagesForRun h "" = []
    ∧ getActiveGroup h "" = none
    ∧ setRunTitle h "" title now = h
    ∧ deleteRunHistory h "" = h
    ∧ saveActiveGroup h "" ag now = h
    ∧ clearActiveGroup h "" now = h := by
  refine ⟨rfl, rfl, rfl, rfl, ?_, rfl, rfl⟩
  simp [deleteRunHistory]

/-! ## Claims about the tunnel and the client close path -/

/-- A registry with one registered tool whose handler always throws. -/
def sampleRegistry : ToolRegistry :=
  [("t1", { run := fun _ => Except.error "boom" })]

/-- C3: for `tools/call` through the tunnel, an unregistered name yields a
JSON-RPC error object carrying the tool-not-found code; a registered name
whose handler throws yields a successful JSON-RPC result flagged
`isError: true`; and every request yields a structured response (a result or
an error object) — the responder is total, no exception crosses the tunnel
boundary. -/
theorem tunnel_tool_call_handling (reg : ToolRegistry) (folders : List String)
    (readFile : String → Option String) :
    (∀ (id : RpcId) (name : String) (args : Option (List (String × String))),
        ToolRegistry.get reg name = none →
        handleMcpRequest reg folders readFile
            { id := id, method := "tools/call", params := RpcParams.toolCall name args }
          = { id := id, result := none,
              error := some { code := McpErrorCodes.TOOL_NOT_FOUND,
                              message := "Tool not found: " ++ name } })
    ∧ (∀ (id : RpcId) (name : String) (args : Option (List (String × String)))
          (t : ToolHandler) (msg : String),
        ToolRegistry.get reg name = some t →
        t.run (args.getD []) = Except.error msg →
        handleMcpRequest reg folders readFile
            { id := id, method := "tools/call", params := RpcParams.toolCall name args }
          = { id := id,
              result := some (McpResult.toolCallResult
                { content := [{ type := "text", text := "Error: " ++ msg }],
                  isError := true }),
              error := none })
    ∧ (∀ req : JsonRpcRequest,
        (handleMcpRequest reg folders readFile req).result.isSome = true
          ∨ (handleMcpRequest reg folders readFile req).error.isSome = true) := by
  refine ⟨?_, ?_, ?_⟩
  · intro id name args hget
    simp [handleMcpRequest, dispatchMethod, handleToolCall, hget, Except.map]
  · intro id name args t msg hget hrun
    simp [handleMcpRequest, dispatchMethod, handleToolCall, hget, hrun, Except.map]
  · intro req
    unfold handleMcpRequest
    cases dispatchMethod reg folders readFile req.method req.params <;> simp

/-- C3 witness: the one-tool registry, on a missing name and on the throwing
handler. -/
theorem tunnel_tool_call_handling_witness :
    ToolRegistry.get sampleRegistry "missing" = none
    ∧ handleMcpRequest sampleRegistry [] (fun _ => none)
        { id := Sum.inl "1", method := "tools/call",
          params := RpcParams.toolCall "missing" none }
      = { id := Sum.inl "1", result := none,
          error := some { code := McpErrorCodes.TOOL_NOT_FOUND,
                          message := "Tool not found: " ++ "missing" } }
    ∧ handleMcpRequest sampleRegistry [] (fun _ => none)
        { id := Sum.inl "2", method := "tools/call",
          params := RpcParams.toolCall "t1" none }
      = { id := Sum.inl "2",
          result := some (McpResult.toolCallResult
            { content := [{ type := "text", text := "Error: " ++ "boom" }],
              isError := true }),
          error := none } :=
  ⟨rfl,
   (tunnel_tool_call_handling sampleRegistry [] (fun _ => none)).1
     (Sum.inl "1") "missing" none rfl,
   (tunnel_tool_call_handling sampleRegistry [] (fun _ => none)).2.1
     (Sum.inl "2") "t1" none { run := fun _ => Except.error "boom" } "boom" rfl rfl⟩

theorem updateTaskState_connection (s : SMState) (t : TaskState) (e : Option String) :
    (updateTaskState s t e).1.state.connection = s.state.connection := by
  unfold updateTaskState
  split
  · rfl
  · simp [performTaskStateUpdate]

theorem updateTaskState_task (s : SMState) (t : TaskState) (e : Option String) :
    (updateTaskState s t e).1.state.task = t := by
  unfold updateTaskState
  split
  · next h => exact h.1
  · simp [performTaskStateUpdate]

/-- C7: on transport close the client stops the heartbeat, moves the
connection to `closed` and the task to `idle`, but — contrary to the spec —
schedules no reconnect attempt on this path for a non-normal close code: it
only fires an error event.  The backoff scheduler `handleConnectionLoss`
(reachable only from the health check, whose timers the close handler just
stopped) is what would produce the claimed first-attempt delay of
`reconnectDelay * 2^0`. -/
theorem transport_close_schedules_no_reconnect (c : ClientState) (code : Nat)
    (hcode : code ≠ 1000) :
    (handleTransportClose c code).1.sm.state.connection = ConnectionState.closed
    ∧ (handleTransportClose c code).1.sm.state.task = TaskState.idle
    ∧ ClientAction.stopHeartbeat ∈ (handleTransportClose c code).2
    ∧ (∀ d : Nat, ClientAction.scheduleReconnect d ∉ (handleTransportClose c code).2)
    ∧ (handleConnectionLoss { c with reconnectAttempts := 0 }).2
        = [ClientAction.scheduleReconnect (reconnectDelayMs * 2 ^ 0)] := by
  have hfst : (handleTransportClose c code).1
      = { sm := (updateTaskState (updateConnectionState c.sm ConnectionState.closed none).1
                  TaskState.idle none).1,
          reconnectAttempts := 0 } := by
    unfold handleTransportClose
    split <;> rfl
  refine ⟨?_, ?_, ?_, ?_, ?_⟩
  · rw [hfst]
    show ((updateTaskState (updateConnectionState c.sm ConnectionState.closed none).1
        TaskState.idle none).1).state.connection = ConnectionState.closed
    rw [updateTaskState_connection, updateConnectionState_connection]
  · rw [hfst]
    show ((updateTaskState (updateConnectionState c.sm ConnectionState.closed none).1
        TaskState.idle none).1).state.task = TaskState.idle
    exact updateTaskState_task _ _ _
  · simp only [handleTransportClose]
    split <;> simp
  · intro d
    simp only [handleTransportClose]
    split <;> simp
  · simp [handleConnectionLoss, maxReconnectAttempts, reconnectDelayMs]

/-- C7 witness: close code 1006 on a freshly constructed client. -/
theorem transport_close_schedules_no_reconnect_witness :
    (1006 : Nat) ≠ 1000
    ∧ (handleTransportClose { sm := initialSMState, reconnectAttempts := 0 } 1006).1.sm.state.task
        = TaskState.idle
    ∧ (∀ d : Nat, ClientAction.scheduleReconnect d
        ∉ (handleTransportClose { sm := initialSMState, reconnectAttempts := 0 } 1006).2) :=
  ⟨by decide,
   (transport_close_schedules_no_reconnect
      { sm := initialSMState, reconnectAttempts := 0 } 1006 (by decide)).2.1,
   (transport_close_schedules_no_reconnect
      { sm := initialSMState, reconnectAttempts := 0 } 1006 (by decide)).2.2.2.1⟩

end Aiat
